import Mathlib

/-!
Verification of `deepmatch/layers/interaction.py`.

Tensors are embedded per batch element as functions `Fin T → Fin C → ℝ`
(batch elements are processed independently by every layer in the file, so
claims about a single batch element are stated at that granularity).
Floating-point arithmetic is idealised as real arithmetic; `exp`, `tanh`
and `sqrt` are the mathematical functions.

`SoftmaxWeightedSum.call` (interaction.py lines 104-120) is embedded with
an explicit `training` flag and an explicit realised dropout multiplier
`drop` standing for the random scaling `Dropout` applies in training mode;
at inference (`training = false`) dropout is the identity, as in Keras.
-/

noncomputable section

/-- The sentinel written into masked positions:
`paddings = tf.ones_like(align) * (-2 ** 32 + 1)` (interaction.py line 106). -/
def paddingValue : ℝ := -(2 ^ 32) + 1

/-- Modelled from the spec: `softmax` is imported from the external
`deepctr.layers.utils`; the spec (§4.1 step 3) specifies a numerically
stable softmax along the key axis (subtract the row max before
exponentiating).  Over the reals the subtracted row max cancels, so the
function equals the plain normalised exponential, which is what we embed. -/
def softmaxRow {T : ℕ} (x : Fin T → ℝ) : Fin T → ℝ :=
  fun j => Real.exp (x j) / ∑ k, Real.exp (x k)

/-- Step 1 of `SoftmaxWeightedSum.call`:
`align = tf.where(key_masks, align, paddings)` (line 107). -/
def maskedAlign {Tq Tk : ℕ} (keyMasks : Fin Tq → Fin Tk → Bool)
    (align : Fin Tq → Fin Tk → ℝ) : Fin Tq → Fin Tk → ℝ :=
  fun i j => if keyMasks i j then align i j else paddingValue

/-- Steps 1-2 of `SoftmaxWeightedSum.call`: after the key mask, when
`future_binding` is set the lower-triangular causal mask is applied:
`align = tf.where(tf.equal(masks, 0), paddings, align)` (lines 108-116),
where `masks` is the tiled lower-triangular ones matrix, i.e. position
`(i, j)` is kept iff `j ≤ i`. -/
def causalAlign {Tq Tk : ℕ} (future_binding : Bool)
    (keyMasks : Fin Tq → Fin Tk → Bool) (align : Fin Tq → Fin Tk → ℝ) :
    Fin Tq → Fin Tk → ℝ :=
  fun i j =>
    if future_binding then
      if (j : ℕ) ≤ (i : ℕ) then maskedAlign keyMasks align i j else paddingValue
    else maskedAlign keyMasks align i j

/-- The attention-weight tensor of `SoftmaxWeightedSum.call`: the value of
`align` right after `align = softmax(align)` (line 117), i.e. the result of
masking followed by softmax along the key axis. -/
def attentionWeights {Tq Tk : ℕ} (future_binding : Bool)
    (align : Fin Tq → Fin Tk → ℝ) (keyMasks : Fin Tq → Fin Tk → Bool) :
    Fin Tq → Fin Tk → ℝ :=
  fun i => softmaxRow (causalAlign future_binding keyMasks align i)

/-- `SoftmaxWeightedSum.call` (lines 104-120): mask, optional causal mask,
softmax, dropout (identity at inference, elementwise multiplication by the
realised dropout factor `drop` in training mode), then
`output = tf.matmul(align, value)`. -/
def SoftmaxWeightedSum.call {Tq Tk D : ℕ} (future_binding training : Bool)
    (drop : Fin Tq → Fin Tk → ℝ) (align : Fin Tq → Fin Tk → ℝ)
    (value : Fin Tk → Fin D → ℝ) (keyMasks : Fin Tq → Fin Tk → Bool) :
    Fin Tq → Fin D → ℝ :=
  fun i d => ∑ j,
    (if training then drop i j * attentionWeights future_binding align keyMasks i j
     else attentionWeights future_binding align keyMasks i j) * value j d

/-- Every softmax row over a nonempty index set sums to 1. -/
lemma softmaxRow_sum {T : ℕ} (hT : 0 < T) (x : Fin T → ℝ) :
    ∑ j, softmaxRow x j = 1 := by
  have hne : (Finset.univ : Finset (Fin T)).Nonempty := ⟨⟨0, hT⟩, Finset.mem_univ _⟩
  have hpos : 0 < ∑ k, Real.exp (x k) :=
    Finset.sum_pos (fun k _ => Real.exp_pos _) hne
  unfold softmaxRow
  rw [← Finset.sum_div, div_self (ne_of_gt hpos)]

/-- Each attention weight is strictly positive (the exponential never
vanishes over the reals). -/
lemma attentionWeights_pos {Tq Tk : ℕ} (future_binding : Bool)
    (align : Fin Tq → Fin Tk → ℝ) (keyMasks : Fin Tq → Fin Tk → Bool)
    (i : Fin Tq) (j : Fin Tk) :
    0 < attentionWeights future_binding align keyMasks i j := by
  have hne : (Finset.univ : Finset (Fin Tk)).Nonempty := ⟨j, Finset.mem_univ _⟩
  have hpos : 0 < ∑ k, Real.exp (causalAlign future_binding keyMasks align i k) :=
    Finset.sum_pos (fun k _ => Real.exp_pos _) hne
  exact div_pos (Real.exp_pos _) hpos

/-- An attention weight is bounded by the exponential of the gap between its
own masked score and any other masked score in the same row. -/
lemma attentionWeights_le_exp_sub {Tq Tk : ℕ} (future_binding : Bool)
    (align : Fin Tq → Fin Tk → ℝ) (keyMasks : Fin Tq → Fin Tk → Bool)
    (i : Fin Tq) (j j₀ : Fin Tk) :
    attentionWeights future_binding align keyMasks i j ≤
      Real.exp (causalAlign future_binding keyMasks align i j -
        causalAlign future_binding keyMasks align i j₀) := by
  set x : Fin Tk → ℝ := causalAlign future_binding keyMasks align i with hx
  have hsum : Real.exp (x j₀) ≤ ∑ k, Real.exp (x k) :=
    Finset.single_le_sum (f := fun k => Real.exp (x k))
      (fun k _ => le_of_lt (Real.exp_pos _)) (Finset.mem_univ j₀)
  have hstep : Real.exp (x j) / (∑ k, Real.exp (x k)) ≤
      Real.exp (x j) / Real.exp (x j₀) := by
    gcongr
  calc attentionWeights future_binding align keyMasks i j
      = Real.exp (x j) / ∑ k, Real.exp (x k) := rfl
    _ ≤ Real.exp (x j) / Real.exp (x j₀) := hstep
    _ = Real.exp (x j - x j₀) := (Real.exp_sub _ _).symm

/-- The row sum of attention weights is 1 whenever the row index set is
nonempty. -/
lemma attentionWeights_row_sum {Tq Tk : ℕ} (hT : 0 < Tk) (future_binding : Bool)
    (align : Fin Tq → Fin Tk → ℝ) (keyMasks : Fin Tq → Fin Tk → Bool) (i : Fin Tq) :
    ∑ j, attentionWeights future_binding align keyMasks i j = 1 :=
  softmaxRow_sum hT _

/-- Claim C1: for every input triple `(align, value, key_mask)` to
`SoftmaxWeightedSum.call` and every position whose `key_mask` entry is
false, replacing the raw alignment score there by any other value leaves
the output unchanged: two runs whose `align` tensors agree on all unmasked
positions produce identical outputs. -/
theorem softmaxWeightedSum_masked_score_irrelevant {Tq Tk D : ℕ}
    (future_binding training : Bool) (drop : Fin Tq → Fin Tk → ℝ)
    (align align' : Fin Tq → Fin Tk → ℝ) (value : Fin Tk → Fin D → ℝ)
    (keyMasks : Fin Tq → Fin Tk → Bool)
    (h : ∀ i j, keyMasks i j = true → align i j = align' i j) :
    SoftmaxWeightedSum.call future_binding training drop align value keyMasks =
      SoftmaxWeightedSum.call future_binding training drop align' value keyMasks := by
  have hm : maskedAlign keyMasks align = maskedAlign keyMasks align' := by
    funext i j
    by_cases hij : keyMasks i j = true <;> simp [maskedAlign, hij, h i j]
  unfold SoftmaxWeightedSum.call attentionWeights causalAlign
  rw [hm]

/-- Witness for C1 at a concrete input: `Tq = 1`, `Tk = 2`, position 1
masked, the two alignment tensors differing only at the masked position. -/
theorem softmaxWeightedSum_masked_score_irrelevant_witness :
    (∀ i j, (fun (_ : Fin 1) (j : Fin 2) => decide ((j : ℕ) = 0)) i j = true →
      (fun (_ : Fin 1) (_ : Fin 2) => (0 : ℝ)) i j =
      (fun (_ : Fin 1) (j : Fin 2) => if (j : ℕ) = 0 then (0 : ℝ) else 5) i j) ∧
    SoftmaxWeightedSum.call false false (fun (_ : Fin 1) (_ : Fin 2) => (1 : ℝ))
        (fun (_ : Fin 1) (_ : Fin 2) => (0 : ℝ)) (fun (_ : Fin 2) (_ : Fin 1) => (1 : ℝ))
        (fun (_ : Fin 1) (j : Fin 2) => decide ((j : ℕ) = 0)) =
      SoftmaxWeightedSum.call false false (fun (_ : Fin 1) (_ : Fin 2) => (1 : ℝ))
        (fun (_ : Fin 1) (j : Fin 2) => if (j : ℕ) = 0 then (0 : ℝ) else 5)
        (fun (_ : Fin 2) (_ : Fin 1) => (1 : ℝ))
        (fun (_ : Fin 1) (j : Fin 2) => decide ((j : ℕ) = 0)) := by
  constructor
  · intro i j hj
    simp only [decide_eq_true_eq] at hj
    simp [hj]
  · exact softmaxWeightedSum_masked_score_irrelevant false false _ _ _ _ _
      (by intro i j hj; simp only [decide_eq_true_eq] at hj; simp [hj])

/-- Claim C2: each row of the attention-weight tensor produced after
masking and softmax in `SoftmaxWeightedSum.call` sums to 1, provided at
least one key position in that row is unmasked.  At inference
(`training = false`) this tensor is exactly the factor multiplying `value`
in the output. -/
theorem attentionWeights_row_sum_one {Tq Tk : ℕ} (future_binding : Bool)
    (align : Fin Tq → Fin Tk → ℝ) (keyMasks : Fin Tq → Fin Tk → Bool)
    (i : Fin Tq) (h : ∃ j, keyMasks i j = true) :
    ∑ j, attentionWeights future_binding align keyMasks i j = 1 := by
  obtain ⟨j, _⟩ := h
  exact attentionWeights_row_sum j.pos future_binding align keyMasks i

/-- Witness for C2 at a concrete input: `Tk = 2` with position 0 unmasked. -/
theorem attentionWeights_row_sum_one_witness :
    (∃ j : Fin 2, (fun (_ : Fin 1) (j : Fin 2) => decide ((j : ℕ) = 0)) 0 j = true) ∧
    ∑ j, attentionWeights false (fun (_ : Fin 1) (_ : Fin 2) => (3 : ℝ))
        (fun _ j => decide ((j : ℕ) = 0)) 0 j = 1 := by
  refine ⟨⟨0, by decide⟩, ?_⟩
  exact attentionWeights_row_sum_one false _ _ 0 ⟨0, by decide⟩

/-- At inference, the difference of two `SoftmaxWeightedSum` outputs that
share `align` and masks is the attention-weighted sum of the value
differences. -/
lemma softmaxWeightedSum_call_sub {Tq Tk D : ℕ} (future_binding : Bool)
    (drop : Fin Tq → Fin Tk → ℝ) (align : Fin Tq → Fin Tk → ℝ)
    (value value' : Fin Tk → Fin D → ℝ) (keyMasks : Fin Tq → Fin Tk → Bool)
    (i : Fin Tq) (d : Fin D) :
    SoftmaxWeightedSum.call future_binding false drop align value keyMasks i d -
      SoftmaxWeightedSum.call future_binding false drop align value' keyMasks i d =
      ∑ j, attentionWeights future_binding align keyMasks i j *
        (value j d - value' j d) := by
  simp only [SoftmaxWeightedSum.call, Bool.false_eq_true, if_false]
  rw [← Finset.sum_sub_distrib]
  exact Finset.sum_congr rfl fun j _ => by ring

/-- Claim C3 fails in exact real arithmetic: with `future_binding = true`,
`T = 2`, all key positions unmasked and all raw scores 0, changing the
value row at position 1 changes the output at query position 0, because the
softmax weight of the sentinel score is positive (it only underflows to 0
in floating point). -/
theorem causal_value_dependence_counterexample :
    SoftmaxWeightedSum.call true false (fun (_ : Fin 2) (_ : Fin 2) => (1 : ℝ))
        (fun (_ : Fin 2) (_ : Fin 2) => (0 : ℝ))
        (fun (_ : Fin 2) (_ : Fin 1) => (0 : ℝ))
        (fun _ _ => true) 0 0 ≠
      SoftmaxWeightedSum.call true false (fun (_ : Fin 2) (_ : Fin 2) => (1 : ℝ))
        (fun (_ : Fin 2) (_ : Fin 2) => (0 : ℝ))
        (fun (j : Fin 2) (_ : Fin 1) => if (j : ℕ) = 1 then (1 : ℝ) else 0)
        (fun _ _ => true) 0 0 := by
  intro heq
  have hL : SoftmaxWeightedSum.call true false (fun (_ : Fin 2) (_ : Fin 2) => (1 : ℝ))
      (fun (_ : Fin 2) (_ : Fin 2) => (0 : ℝ))
      (fun (_ : Fin 2) (_ : Fin 1) => (0 : ℝ)) (fun _ _ => true) 0 0 = 0 := by
    simp [SoftmaxWeightedSum.call]
  have hR : SoftmaxWeightedSum.call true false (fun (_ : Fin 2) (_ : Fin 2) => (1 : ℝ))
      (fun (_ : Fin 2) (_ : Fin 2) => (0 : ℝ))
      (fun (j : Fin 2) (_ : Fin 1) => if (j : ℕ) = 1 then (1 : ℝ) else 0)
      (fun _ _ => true) 0 0 =
      attentionWeights true (fun (_ : Fin 2) (_ : Fin 2) => (0 : ℝ))
        (fun _ _ => true) 0 1 := by
    norm_num [SoftmaxWeightedSum.call, Fin.sum_univ_two]
  rw [hL, hR] at heq
  exact absurd heq.symm (ne_of_gt (attentionWeights_pos _ _ _ _ _))

/-- Claim C3, amended: with `future_binding = true` and at inference, the
output of `SoftmaxWeightedSum.call` at query position `i` depends on value
rows strictly after `i` only through the attention weights of
sentinel-masked scores: the output difference of two runs whose values
agree at rows `j ≤ i` equals the weighted sum of the value differences over
rows `j > i`, and each such weight is positive but at most
`exp(paddingValue - s)` where `s` is the row's retained diagonal score (the
weight underflows to exactly 0 in the floating-point program, which is how
the original exact-invariance claim holds in practice). -/
theorem causal_value_dependence_amended {T D : ℕ}
    (drop : Fin T → Fin T → ℝ) (align : Fin T → Fin T → ℝ)
    (value value' : Fin T → Fin D → ℝ) (keyMasks : Fin T → Fin T → Bool)
    (i : Fin T) (d : Fin D)
    (hv : ∀ j : Fin T, (j : ℕ) ≤ (i : ℕ) → ∀ d' : Fin D, value j d' = value' j d') :
    SoftmaxWeightedSum.call true false drop align value keyMasks i d -
      SoftmaxWeightedSum.call true false drop align value' keyMasks i d =
      ∑ j ∈ Finset.univ.filter (fun j : Fin T => (i : ℕ) < (j : ℕ)),
        attentionWeights true align keyMasks i j * (value j d - value' j d) ∧
    ∀ j : Fin T, (i : ℕ) < (j : ℕ) →
      attentionWeights true align keyMasks i j ≤
        Real.exp (paddingValue - causalAlign true keyMasks align i i) := by
  constructor
  · rw [softmaxWeightedSum_call_sub]
    refine (Finset.sum_filter_of_ne ?_).symm
    intro j _ hne
    by_contra hnlt
    push_neg at hnlt
    exact hne (by rw [hv j hnlt d]; ring)
  · intro j hj
    have hb := attentionWeights_le_exp_sub true align keyMasks i j i
    have hcj : causalAlign true keyMasks align i j = paddingValue := by
      have hnle : ¬((j : ℕ) ≤ (i : ℕ)) := by omega
      simp [causalAlign, hnle]
    rw [hcj] at hb
    exact hb

/-- Witness for the amended C3 at a concrete input: `T = 2`, `i = 0`, the
two value tensors agreeing at row 0 and differing at row 1. -/
theorem causal_value_dependence_amended_witness :
    (∀ j : Fin 2, (j : ℕ) ≤ ((0 : Fin 2) : ℕ) → ∀ d' : Fin 1,
      (fun (_ : Fin 2) (_ : Fin 1) => (0 : ℝ)) j d' =
      (fun (j : Fin 2) (_ : Fin 1) => if (j : ℕ) = 1 then (1 : ℝ) else 0) j d') ∧
    (SoftmaxWeightedSum.call true false (fun (_ : Fin 2) (_ : Fin 2) => (1 : ℝ))
        (fun (_ : Fin 2) (_ : Fin 2) => (0 : ℝ))
        (fun (_ : Fin 2) (_ : Fin 1) => (0 : ℝ)) (fun _ _ => true) 0 0 -
      SoftmaxWeightedSum.call true false (fun (_ : Fin 2) (_ : Fin 2) => (1 : ℝ))
        (fun (_ : Fin 2) (_ : Fin 2) => (0 : ℝ))
        (fun (j : Fin 2) (_ : Fin 1) => if (j : ℕ) = 1 then (1 : ℝ) else 0)
        (fun _ _ => true) 0 0 =
      ∑ j ∈ Finset.univ.filter (fun j : Fin 2 => ((0 : Fin 2) : ℕ) < (j : ℕ)),
        attentionWeights true (fun (_ : Fin 2) (_ : Fin 2) => (0 : ℝ)) (fun (_ : Fin 2) (_ : Fin 2) => true) 0 j *
          ((fun (_ : Fin 2) (_ : Fin 1) => (0 : ℝ)) j 0 -
           (fun (j : Fin 2) (_ : Fin 1) => if (j : ℕ) = 1 then (1 : ℝ) else 0) j 0) ∧
     ∀ j : Fin 2, ((0 : Fin 2) : ℕ) < (j : ℕ) →
      attentionWeights true (fun (_ : Fin 2) (_ : Fin 2) => (0 : ℝ)) (fun (_ : Fin 2) (_ : Fin 2) => true) 0 j ≤
        Real.exp (paddingValue -
          causalAlign true (fun (_ : Fin 2) (_ : Fin 2) => true) (fun (_ : Fin 2) (_ : Fin 2) => (0 : ℝ)) 0 0)) := by
  have hv : ∀ j : Fin 2, (j : ℕ) ≤ ((0 : Fin 2) : ℕ) → ∀ d' : Fin 1,
      (fun (_ : Fin 2) (_ : Fin 1) => (0 : ℝ)) j d' =
      (fun (j : Fin 2) (_ : Fin 1) => if (j : ℕ) = 1 then (1 : ℝ) else 0) j d' := by
    intro j hj d'
    have hj0 : (j : ℕ) = 0 := by simpa using hj
    simp [hj0]
  exact ⟨hv, causal_value_dependence_amended
    (fun (_ : Fin 2) (_ : Fin 2) => (1 : ℝ)) (fun _ _ => (0 : ℝ))
    (fun _ _ => (0 : ℝ)) (fun j _ => if (j : ℕ) = 1 then (1 : ℝ) else 0)
    (fun _ _ => true) 0 0 hv⟩

/-- Hyperparameters stored by `SelfMultiHeadAttention.__init__`
(interaction.py lines 225-238). -/
structure SelfMultiHeadAttentionParams where
  num_units : ℕ
  head_num : ℤ
  scale : Bool
  dropout_rate : ℚ
  future_binding : Bool
  use_layer_norm : Bool
  use_res : Bool
  seed : ℤ
deriving DecidableEq

/-- `SelfMultiHeadAttention.__init__` (lines 225-238): raises
`head_num must be a int > 0` when `head_num <= 0`, otherwise stores the
hyperparameters. -/
def SelfMultiHeadAttention.init (num_units : ℕ) (head_num : ℤ) (scale : Bool)
    (dropout_rate : ℚ) (future_binding use_layer_norm use_res : Bool)
    (seed : ℤ) : Except String SelfMultiHeadAttentionParams :=
  if head_num ≤ 0 then Except.error "head_num must be a int > 0"
  else Except.ok ⟨num_units, head_num, scale, dropout_rate, future_binding,
    use_layer_norm, use_res, seed⟩

/-- `SelfMultiHeadAttention.build` shape validation (lines 240-245): the
layer must be called on a list of two shapes, the first of rank 3 and the
second of rank 2.  No divisibility check is performed at build time. -/
def SelfMultiHeadAttention.buildOk (input_shapes : List (List ℕ)) : Bool :=
  match input_shapes with
  | [s0, s1] => decide (s0.length = 3) && decide (s1.length = 2)
  | _ => false

/-- Shape of the elementwise addition `outputs += input_info` (line 292):
`tf.add` follows numpy broadcasting on the trailing (channel) dimension,
so the addition succeeds iff the widths are equal or one of them is 1. -/
def broadcastDim (a b : ℕ) : Option ℕ :=
  if a = b then some a else if a = 1 then some b else if b = 1 then some a else none

/-- Shape of the per-head split/concat (lines 276-278):
`tf.concat(tf.split(x, head_num, axis=2), axis=0)` on `[B, T, U]` requires
`head_num` to evenly divide the channel width `U` and yields
`[head_num * B, T, U / head_num]`. -/
def splitHeadsShape (head_num B T U : ℕ) : Option (ℕ × ℕ × ℕ) :=
  if head_num ∣ U then some (head_num * B, T, U / head_num) else none

/-- Shape-level embedding of `SelfMultiHeadAttention.call` (lines 265-296)
on input `[B, T, C]`: the `Q_K_V` projection and three-way split give
`[B, T, num_units]` each; the per-head split must divide `num_units`; dot
attention and `SoftmaxWeightedSum` preserve the per-head shape; heads are
re-merged to channel width `(num_units / head_num) * head_num`, which must
match the `[num_units, num_units]` output projection; finally the optional
residual addition broadcasts against the input channel width `C`.
Layer normalization and dropout preserve shape.  `none` means the forward
call raises a shape error. -/
def SelfMultiHeadAttention.callShape (num_units head_num : ℕ) (use_res : Bool)
    (B T C : ℕ) : Option (ℕ × ℕ × ℕ) :=
  (splitHeadsShape head_num B T num_units).bind fun s =>
    if s.2.2 * head_num = num_units then
      if use_res then (broadcastDim num_units C).map fun c2 => (B, T, c2)
      else some (B, T, num_units)
    else none

/-- Claim C4 fails on the code: with `num_units = 1`, `head_num = 1`,
`use_res = true` and input channel width `C = 2`, the residual addition
broadcasts instead of failing, the forward call succeeds, and the output
channel width is 2, not `num_units = 1`. -/
theorem selfMHA_residual_broadcast_counterexample :
    SelfMultiHeadAttention.callShape 1 1 true 5 3 2 = some (5, 3, 2) ∧
      ¬(2 = 1 ∨ SelfMultiHeadAttention.callShape 1 1 true 5 3 2 = none) := by
  exact ⟨rfl, by decide⟩

/-- Claim C4, amended: the forward call of `SelfMultiHeadAttention` on
input `[B, T, C]` succeeds iff `head_num` divides `num_units` and, when
`use_res` is set, the channel widths `num_units` and `C` are broadcast
compatible (equal, or one of them 1); on success the output channel width
is `num_units`, except in the broadcast case `num_units = 1 ≠ C` where it
is `C`.  In particular the residual addition fails with a shape mismatch
iff `num_units ≠ C` and neither width is 1. -/
theorem selfMHA_callShape_characterization (U h B T C : ℕ) (use_res : Bool) :
    SelfMultiHeadAttention.callShape U h use_res B T C =
      if h ∣ U then
        if use_res then
          if U = C then some (B, T, U)
          else if U = 1 then some (B, T, C)
          else if C = 1 then some (B, T, U)
          else none
        else some (B, T, U)
      else none := by
  by_cases hdvd : h ∣ U
  · have hmul : U / h * h = U := Nat.div_mul_cancel hdvd
    simp only [SelfMultiHeadAttention.callShape, splitHeadsShape, broadcastDim,
      if_pos hdvd, Option.some_bind, hmul]
    split_ifs <;> simp_all
  · simp [SelfMultiHeadAttention.callShape, splitHeadsShape, hdvd]

/-- Claim C10: `SelfMultiHeadAttention.call` has the unstated precondition
that `head_num` divides `num_units`: when it does not, construction and
build both succeed, but the per-head split and hence the forward call
fail. -/
theorem selfMHA_head_divisibility_required (U hN B T C : ℕ) (use_res : Bool)
    (hpos : 0 < hN) (hndvd : ¬ hN ∣ U) :
    (SelfMultiHeadAttention.init U (hN : ℤ) true (1 / 5) true true use_res
        2020).isOk = true ∧
    SelfMultiHeadAttention.buildOk [[B, T, C], [B, 1]] = true ∧
    splitHeadsShape hN B T U = none ∧
    SelfMultiHeadAttention.callShape U hN use_res B T C = none := by
  have hz : (0 : ℤ) < (hN : ℤ) := by exact_mod_cast hpos
  refine ⟨?_, rfl, ?_, ?_⟩
  · simp [SelfMultiHeadAttention.init, not_le.mpr hz, Except.isOk, Except.toBool]
  · simp [splitHeadsShape, hndvd]
  · simp [SelfMultiHeadAttention.callShape, splitHeadsShape, hndvd]

/-- Witness for C10 at a concrete input: `num_units = 8`, `head_num = 3`. -/
theorem selfMHA_head_divisibility_required_witness :
    0 < 3 ∧ ¬(3 ∣ 8) ∧
    ((SelfMultiHeadAttention.init 8 ((3 : ℕ) : ℤ) true (1 / 5) true true true
        2020).isOk = true ∧
     SelfMultiHeadAttention.buildOk [[2, 4, 8], [2, 1]] = true ∧
     splitHeadsShape 3 2 4 8 = none ∧
     SelfMultiHeadAttention.callShape 8 3 true 2 4 8 = none) :=
  ⟨by decide, by decide,
    selfMHA_head_divisibility_required 8 3 2 4 8 true (by decide) (by decide)⟩

/-- `AdditiveAttention.build` shape validation (lines 386-388): raises a
descriptive error unless `hidden_units` equals the trailing dimension of
both the queries and the keys. -/
def AdditiveAttention.build (hidden_units qC kC : ℕ) : Except String Unit :=
  if hidden_units ≠ qC ∨ hidden_units ≠ kC then
    Except.error "The hidden units must be equal to the last dimension of queries and keys!"
  else Except.ok ()

/-- Claim C7: `AdditiveAttention` fails at build time with a descriptive
error exactly when `hidden_units` differs from the trailing dimension of
the queries or of the keys, and builds successfully when both match. -/
theorem additiveAttention_build_check (hu qC kC : ℕ) :
    (AdditiveAttention.build hu qC kC =
      Except.error
        "The hidden units must be equal to the last dimension of queries and keys!" ↔
      (hu ≠ qC ∨ hu ≠ kC)) ∧
    (AdditiveAttention.build hu qC kC = Except.ok () ↔ (hu = qC ∧ hu = kC)) := by
  unfold AdditiveAttention.build
  by_cases hcond : hu ≠ qC ∨ hu ≠ kC
  · rw [if_pos hcond]
    constructor
    · simpa using hcond
    · simp only [iff_iff_implies_and_implies]
      constructor
      · intro hcontra; exact absurd hcontra (by simp)
      · intro hand; exact absurd hcond (by tauto)
  · rw [if_neg hcond]
    push_neg at hcond
    obtain ⟨e1, e2⟩ := hcond
    subst e1
    subst e2
    constructor <;> simp

/-- Claim C8: constructing `SelfMultiHeadAttention` raises exactly when
`head_num ≤ 0`, and succeeds for every positive `head_num`. -/
theorem selfMHA_head_num_positive_check (num_units : ℕ) (head_num : ℤ)
    (scale future_binding use_layer_norm use_res : Bool) (dropout_rate : ℚ)
    (seed : ℤ) :
    (SelfMultiHeadAttention.init num_units head_num scale dropout_rate
        future_binding use_layer_norm use_res seed =
      Except.error "head_num must be a int > 0" ↔ head_num ≤ 0) ∧
    ((SelfMultiHeadAttention.init num_units head_num scale dropout_rate
        future_binding use_layer_norm use_res seed).isOk = true ↔
      0 < head_num) := by
  unfold SelfMultiHeadAttention.init
  by_cases hle : head_num ≤ 0
  · simp [hle, Except.isOk, Except.toBool]
  · simp [hle, Except.isOk, Except.toBool, not_le.mp hle]

/-- Values that can appear in a layer configuration mapping.
`layerObjectV` marks a non-serialisable layer object stored where a plain
option value was expected. -/
inductive ConfigValue where
  | natV (n : ℕ)
  | intV (z : ℤ)
  | ratV (q : ℚ)
  | boolV (b : Bool)
  | strV (s : String)
  | layerObjectV (activation : String)
deriving DecidableEq

/-- Lookup of a key in a configuration mapping (first match wins, as in a
Python dict built from an association list). -/
def configLookup (key : String) : List (String × ConfigValue) → Option ConfigValue
  | [] => none
  | (k, v) :: rest => if k = key then some v else configLookup key rest

/-- Hyperparameters accepted by `AdditiveAttention.__init__`
(interaction.py line 378), with their defaults
`(hidden_units=64, use_bias=True, activation="tanh", dropout_rate=0, seed=2020)`. -/
structure AdditiveAttentionParams where
  hidden_units : ℕ
  use_bias : Bool
  activation : String
  dropout_rate : ℚ
  seed : ℤ
deriving DecidableEq

/-- `AdditiveAttention.get_config` (lines 435-439): the returned mapping
contains `use_bias`, `activation`, `dropout_rate` and `seed` but NO
`hidden_units` entry, and under `activation` it stores
`self.activation_layer` — the built activation layer object — rather than
the `activation` option value.  (The base-layer entries such as `name`
are irrelevant here and omitted.) -/
def AdditiveAttention.get_config (p : AdditiveAttentionParams) :
    List (String × ConfigValue) :=
  [("use_bias", ConfigValue.boolV p.use_bias),
   ("activation", ConfigValue.layerObjectV p.activation),
   ("dropout_rate", ConfigValue.ratV p.dropout_rate),
   ("seed", ConfigValue.intV p.seed)]

/-- Reconstruction of an `AdditiveAttention` layer from a configuration
mapping, i.e. `AdditiveAttention(**config)`: every missing option falls
back to the constructor default of line 378 (in particular
`hidden_units = 64` when the mapping has no `hidden_units` entry). -/
def AdditiveAttention.from_config (cfg : List (String × ConfigValue)) :
    AdditiveAttentionParams where
  hidden_units := match configLookup "hidden_units" cfg with
    | some (ConfigValue.natV n) => n
    | _ => 64
  use_bias := match configLookup "use_bias" cfg with
    | some (ConfigValue.boolV b) => b
    | _ => true
  activation := match configLookup "activation" cfg with
    | some (ConfigValue.strV s) => s
    | some (ConfigValue.layerObjectV s) => s
    | _ => "tanh"
  dropout_rate := match configLookup "dropout_rate" cfg with
    | some (ConfigValue.ratV q) => q
    | _ => 0
  seed := match configLookup "seed" cfg with
    | some (ConfigValue.intV z) => z
    | _ => 2020

/-- Claim C6 is right and the code is wrong: `AdditiveAttention.get_config`
omits `hidden_units` and stores the activation layer object instead of the
`activation` option, so a layer constructed from the extracted
configuration is NOT equivalent to the original.  Concretely, for
`AdditiveAttention(hidden_units=32)` the reconstructed layer gets the
default `hidden_units = 64` and fails to build on the very input shapes
(trailing dimension 32) on which the original builds successfully. -/
theorem additiveAttention_config_roundtrip_bug :
    configLookup "hidden_units"
        (AdditiveAttention.get_config ⟨32, true, "tanh", 0, 2020⟩) = none ∧
    configLookup "activation"
        (AdditiveAttention.get_config ⟨32, true, "tanh", 0, 2020⟩) =
      some (ConfigValue.layerObjectV "tanh") ∧
    (AdditiveAttention.from_config
        (AdditiveAttention.get_config ⟨32, true, "tanh", 0, 2020⟩)).hidden_units
      = 64 ∧
    (AdditiveAttention.build
        (⟨32, true, "tanh", 0, 2020⟩ : AdditiveAttentionParams).hidden_units
        32 32).isOk = true ∧
    (AdditiveAttention.build
        (AdditiveAttention.from_config
          (AdditiveAttention.get_config ⟨32, true, "tanh", 0, 2020⟩)).hidden_units
        32 32).isOk = false := by
  refine ⟨rfl, rfl, rfl, rfl, rfl⟩

/-- `ConcatAttention.call` (interaction.py lines 61-68): concatenate query
and key along the channel axis, apply the learned `Dense(1, tanh)`
projection (weights `w`, bias `b`), optionally scale by `1/sqrt(C_k)`, and
transpose to `[1, T]`. -/
def ConcatAttention.call {T Cq Ck : ℕ} (scale : Bool) (w : Fin (Cq + Ck) → ℝ)
    (b : ℝ) (query : Fin T → Fin Cq → ℝ) (key : Fin T → Fin Ck → ℝ) :
    Fin 1 → Fin T → ℝ :=
  fun _ t =>
    let projected := Real.tanh ((∑ c, Fin.append (query t) (key t) c * w c) + b)
    if scale then projected / Real.sqrt (Ck : ℝ) else projected

/-- The `attention_score` tensor of `AttentionSequencePoolingLayer.call`
(line 159): `ConcatAttention` (with its default `scale=True`) applied to
the query tiled across the `T` key positions, and the keys. -/
def aspScore {T C : ℕ} (w : Fin (C + C) → ℝ) (b : ℝ)
    (queries : Fin 1 → Fin C → ℝ) (keys : Fin T → Fin C → ℝ) :
    Fin 1 → Fin T → ℝ :=
  ConcatAttention.call true w b (fun _ c => queries 0 c) keys

/-- The `key_masks` tensor of `AttentionSequencePoolingLayer.call`
(line 157): `tf.sequence_mask(keys_length, hist_len)`. -/
def aspMask (T keys_length : ℕ) : Fin 1 → Fin T → Bool :=
  fun _ t => decide ((t : ℕ) < keys_length)

/-- The attention weights used by `AttentionSequencePoolingLayer.call`:
the weights computed inside its inner `SoftmaxWeightedSum`
(`future_binding=False`, line 151). -/
def aspWeights {T C : ℕ} (w : Fin (C + C) → ℝ) (b : ℝ)
    (queries : Fin 1 → Fin C → ℝ) (keys : Fin T → Fin C → ℝ)
    (keys_length : ℕ) : Fin 1 → Fin T → ℝ :=
  attentionWeights false (aspScore w b queries keys) (aspMask T keys_length)

/-- `AttentionSequencePoolingLayer.call` (lines 154-163) at inference:
derive the key mask from `keys_length`, tile the query, score with
`ConcatAttention`, and aggregate the keys with `SoftmaxWeightedSum`
(no causal masking; dropout identity at inference). -/
def AttentionSequencePoolingLayer.call {T C : ℕ} (w : Fin (C + C) → ℝ) (b : ℝ)
    (queries : Fin 1 → Fin C → ℝ) (keys : Fin T → Fin C → ℝ)
    (keys_length : ℕ) : Fin 1 → Fin C → ℝ :=
  SoftmaxWeightedSum.call false false (fun _ _ => 1)
    (aspScore w b queries keys) keys (aspMask T keys_length)

/-- Claim C5 fails in exact real arithmetic: with `T = 3`, `C = 4`,
`keys_length = 1` (only position 0 unmasked), zero projection weights and
a key tensor whose row 0 is the first standard basis vector, the pooled
output differs from the value vector at position 0, because the masked
positions keep a strictly positive softmax weight and position 0 gets
weight strictly below 1 (the weight is exactly 1 only after floating-point
underflow of the sentinel's exponential). -/
theorem attentionPooling_unit_weight_counterexample :
    AttentionSequencePoolingLayer.call (fun (_ : Fin (4 + 4)) => (0 : ℝ)) 0
        (fun (_ : Fin 1) (_ : Fin 4) => 0)
        (fun (j : Fin 3) (c : Fin 4) => if (j : ℕ) = 0 ∧ (c : ℕ) = 0 then 1 else 0)
        1 0 0 ≠
      (fun (j : Fin 3) (c : Fin 4) => if (j : ℕ) = 0 ∧ (c : ℕ) = 0 then (1 : ℝ) else 0)
        0 0 := by
  intro heq
  set w0 : Fin (4 + 4) → ℝ := fun _ => 0 with hw0
  set q0 : Fin 1 → Fin 4 → ℝ := fun _ _ => 0 with hq0
  set k0 : Fin 3 → Fin 4 → ℝ :=
    fun j c => if (j : ℕ) = 0 ∧ (c : ℕ) = 0 then 1 else 0 with hk0
  have hout : AttentionSequencePoolingLayer.call w0 0 q0 k0 1 0 0 =
      ∑ j : Fin 3, aspWeights w0 0 q0 k0 1 0 j * k0 j 0 := by
    simp [AttentionSequencePoolingLayer.call, SoftmaxWeightedSum.call, aspWeights]
  have hk00 : k0 0 0 = 1 := by norm_num [hk0]
  have hk10 : k0 1 0 = 0 := by norm_num [hk0]
  have hk20 : k0 2 0 = 0 := by norm_num [hk0]
  have hsum : aspWeights w0 0 q0 k0 1 0 0 + aspWeights w0 0 q0 k0 1 0 1 +
      aspWeights w0 0 q0 k0 1 0 2 = 1 := by
    have h := attentionWeights_row_sum (by norm_num) false
      (aspScore w0 0 q0 k0) (aspMask 3 1) (0 : Fin 1)
    rwa [Fin.sum_univ_three] at h
  have h1 : 0 < aspWeights w0 0 q0 k0 1 0 1 := attentionWeights_pos _ _ _ _ _
  have h2 : 0 < aspWeights w0 0 q0 k0 1 0 2 := attentionWeights_pos _ _ _ _ _
  have hlt : AttentionSequencePoolingLayer.call w0 0 q0 k0 1 0 0 < 1 := by
    rw [hout, Fin.sum_univ_three, hk00, hk10, hk20]
    ring_nf
    linarith
  rw [heq] at hlt
  rw [hk00] at hlt
  exact lt_irrefl 1 hlt

/-- Claim C5, amended: in the scenario `T = 3`, `C = 4`, `keys_length = 1`
(a batch element whose only unmasked key is position 0), the pooled output
equals the value vector at position 0 up to error terms weighted by the
attention weights of the two sentinel-masked positions; those weights are
strictly positive but at most `exp(paddingValue - s₀)` where `s₀` is the
kept raw score at position 0 (they underflow to exactly 0, giving weight
1.0 at position 0, only in the floating-point program). -/
theorem attentionPooling_masked_scenario_amended (w : Fin (4 + 4) → ℝ) (b : ℝ)
    (queries : Fin 1 → Fin 4 → ℝ) (keys : Fin 3 → Fin 4 → ℝ) (d : Fin 4) :
    (AttentionSequencePoolingLayer.call w b queries keys 1 0 d - keys 0 d =
      aspWeights w b queries keys 1 0 1 * (keys 1 d - keys 0 d) +
        aspWeights w b queries keys 1 0 2 * (keys 2 d - keys 0 d)) ∧
    (∀ j : Fin 3, 0 < aspWeights w b queries keys 1 0 j) ∧
    (∀ j : Fin 3, 1 ≤ (j : ℕ) →
      aspWeights w b queries keys 1 0 j ≤
        Real.exp (paddingValue - aspScore w b queries keys 0 0)) := by
  refine ⟨?_, fun j => attentionWeights_pos _ _ _ _ _, ?_⟩
  · have hout : AttentionSequencePoolingLayer.call w b queries keys 1 0 d =
        ∑ j : Fin 3, aspWeights w b queries keys 1 0 j * keys j d := by
      simp [AttentionSequencePoolingLayer.call, SoftmaxWeightedSum.call, aspWeights]
    have hsum : aspWeights w b queries keys 1 0 0 + aspWeights w b queries keys 1 0 1 +
        aspWeights w b queries keys 1 0 2 = 1 := by
      have h := attentionWeights_row_sum (by norm_num) false
        (aspScore w b queries keys) (aspMask 3 1) (0 : Fin 1)
      rwa [Fin.sum_univ_three] at h
    have h0 : aspWeights w b queries keys 1 0 0 =
        1 - aspWeights w b queries keys 1 0 1 - aspWeights w b queries keys 1 0 2 := by
      linarith
    rw [hout, Fin.sum_univ_three, h0]
    ring
  · intro j hj
    have hmj : causalAlign false (aspMask 3 1) (aspScore w b queries keys) 0 j =
        paddingValue := by
      have hnlt : ¬((j : ℕ) < 1) := by omega
      simp [causalAlign, maskedAlign, aspMask, hnlt]
    have hm0 : causalAlign false (aspMask 3 1) (aspScore w b queries keys) 0 0 =
        aspScore w b queries keys 0 0 := by
      simp [causalAlign, maskedAlign, aspMask]
    have hb := attentionWeights_le_exp_sub false (aspScore w b queries keys)
      (aspMask 3 1) (0 : Fin 1) j 0
    rw [hmj, hm0] at hb
    exact hb

/-- Witness for the amended C5 at a concrete input: zero weights, zero
bias, zero query and key tensors, masked position `j = 1`. -/
theorem attentionPooling_masked_scenario_amended_witness :
    1 ≤ ((1 : Fin 3) : ℕ) ∧
    aspWeights (fun (_ : Fin (4 + 4)) => (0 : ℝ)) 0
        (fun (_ : Fin 1) (_ : Fin 4) => (0 : ℝ))
        (fun (_ : Fin 3) (_ : Fin 4) => (0 : ℝ)) 1 0 1 ≤
      Real.exp (paddingValue -
        aspScore (fun (_ : Fin (4 + 4)) => (0 : ℝ)) 0
          (fun (_ : Fin 1) (_ : Fin 4) => (0 : ℝ))
          (fun (_ : Fin 3) (_ : Fin 4) => (0 : ℝ)) 0 0) :=
  ⟨by decide,
    (attentionPooling_masked_scenario_amended (fun _ => 0) 0 (fun _ _ => 0)
      (fun _ _ => 0) 0).2.2 1 (by decide)⟩

/-- `AdditiveAttention.call` (interaction.py lines 403-427) at inference:
values are the keys; the sequence mask is derived from `sequence_length`
and tiled across the query positions; queries and keys are projected
through `W_q` and `W_k`, broadcast-added (plus bias `b` when `use_bias`),
passed through the activation `act`, projected to scalar scores by `v`,
and aggregated by `SoftmaxWeightedSum` (no causal masking). -/
def AdditiveAttention.call {Tq Tk H : ℕ} (use_bias : Bool) (act : ℝ → ℝ)
    (W_q W_k : Fin H → Fin H → ℝ) (v : Fin H → ℝ) (b : Fin H → ℝ)
    (queries : Fin Tq → Fin H → ℝ) (keys : Fin Tk → Fin H → ℝ)
    (sequence_length : ℕ) : Fin Tq → Fin H → ℝ :=
  let seq_mask : Fin Tq → Fin Tk → Bool :=
    fun _ t => decide ((t : ℕ) < sequence_length)
  let keysProj : Fin Tk → Fin H → ℝ := fun t hh => ∑ u, keys t u * W_k u hh
  let queriesProj : Fin Tq → Fin H → ℝ := fun q hh => ∑ u, queries q u * W_q u hh
  let attn_value : Fin Tq → Fin Tk → Fin H → ℝ := fun q t hh =>
    if use_bias then act (keysProj t hh + queriesProj q hh + b hh)
    else act (keysProj t hh + queriesProj q hh)
  let scores : Fin Tq → Fin Tk → ℝ := fun q t => ∑ hh, attn_value q t hh * v hh
  SoftmaxWeightedSum.call false false (fun _ _ => 1) scores keys seq_mask

/-- Over a single key position, the masked softmax weight is 1 regardless
of the raw score and of the mask (one exponential divided by itself). -/
lemma attentionWeights_singleton {Tq : ℕ} (future_binding : Bool)
    (align : Fin Tq → Fin 1 → ℝ) (keyMasks : Fin Tq → Fin 1 → Bool)
    (i : Fin Tq) (j : Fin 1) :
    attentionWeights future_binding align keyMasks i j = 1 := by
  have h := attentionWeights_row_sum (by norm_num) future_binding align keyMasks i
  rw [Fin.sum_univ_one] at h
  have hj : j = 0 := Subsingleton.elim j 0
  rw [hj]
  exact h

/-- `SoftmaxWeightedSum.call` at inference over a single key position
returns that position's value row unchanged: the softmax over one logit is
identically 1. -/
lemma softmaxWeightedSum_call_singleton {Tq D : ℕ} (future_binding : Bool)
    (drop : Fin Tq → Fin 1 → ℝ) (align : Fin Tq → Fin 1 → ℝ)
    (value : Fin 1 → Fin D → ℝ) (keyMasks : Fin Tq → Fin 1 → Bool)
    (i : Fin Tq) (d : Fin D) :
    SoftmaxWeightedSum.call future_binding false drop align value keyMasks i d =
      value 0 d := by
  simp only [SoftmaxWeightedSum.call, Bool.false_eq_true, if_false]
  rw [Fin.sum_univ_one, attentionWeights_singleton, one_mul]

/-- `NARMEncoderLayer.call` (interaction.py lines 466-485).  The recurrent
primitive (`tf.nn.dynamic_rnn` over `GRUCell`s) is an external
collaborator, abstracted as `rnn` (modelled from the spec, which requires
a standard gated-recurrent stack respecting the valid length); the source
loop (lines 468-478) reruns each configured cell on the unchanged
`rnn_input` and keeps only the last iteration's
`(rnn_output, hidden_state)`, which is what `rnn` denotes.  Line 481 then
calls `self.local_encoder_layer([rnn_output, hidden_state, sequence_length])`
on the inner `AdditiveAttention` (`use_bias=False`, activation `act`
standing for sigmoid, dropout 0), whose `call` unpacks
`queries, keys, sequence_length = inputs`: so the PER-STEP OUTPUTS are the
queries and the final hidden state, expanded with a singleton time axis
(line 480), is the single key (and value) position.  The result is summed
over the `T`-long query axis (`reduce_sum(user_local_output, axis=1)`) and
concatenated after the global representation. -/
def NARMEncoderLayer.call {T C H : ℕ} (act : ℝ → ℝ)
    (W_q W_k : Fin H → Fin H → ℝ) (v : Fin H → ℝ)
    (rnn : (Fin T → Fin C → ℝ) → ℕ → ((Fin T → Fin H → ℝ) × (Fin H → ℝ)))
    (inputs : Fin T → Fin C → ℝ) (sequence_length : ℕ) : Fin (H + H) → ℝ :=
  let rnn_output := (rnn inputs sequence_length).1
  let hidden_state := (rnn inputs sequence_length).2
  let user_global_output := hidden_state
  let hidden_expanded : Fin 1 → Fin H → ℝ := fun _ => hidden_state
  let user_local_output :=
    AdditiveAttention.call false act W_q W_k v (fun _ => 0) rnn_output
      hidden_expanded sequence_length
  let user_local_sum : Fin H → ℝ := fun hh => ∑ t, user_local_output t hh
  Fin.append user_global_output user_local_sum

/-- Claim C9 is right about the intent and the code is wrong: because
line 481 feeds `rnn_output` as the queries and the expanded final hidden
state as the single key/value of the inner `AdditiveAttention`, the
softmax is taken over one key position and every attention weight is
identically 1, so the "local" half of the output of
`NARMEncoderLayer.call` is `T · hidden_state` — independent of the
per-step outputs and of all the attention parameters — instead of the
claimed `AdditiveAttention`-pooled summary of the per-step outputs.  The
first `H` channels are the final hidden state, as claimed. -/
theorem narmEncoder_local_output_ignores_step_outputs {T C H : ℕ}
    (act : ℝ → ℝ) (W_q W_k : Fin H → Fin H → ℝ) (v : Fin H → ℝ)
    (rnn : (Fin T → Fin C → ℝ) → ℕ → ((Fin T → Fin H → ℝ) × (Fin H → ℝ)))
    (inputs : Fin T → Fin C → ℝ) (sequence_length : ℕ) :
    (∀ k : Fin H, NARMEncoderLayer.call act W_q W_k v rnn inputs sequence_length
        (Fin.castAdd H k) = (rnn inputs sequence_length).2 k) ∧
    (∀ k : Fin H, NARMEncoderLayer.call act W_q W_k v rnn inputs sequence_length
        (Fin.natAdd H k) = (T : ℝ) * (rnn inputs sequence_length).2 k) := by
  have hAA : ∀ (t : Fin T) (k : Fin H),
      AdditiveAttention.call false act W_q W_k v (fun _ => 0)
        (rnn inputs sequence_length).1
        (fun (_ : Fin 1) => (rnn inputs sequence_length).2) sequence_length t k =
      (rnn inputs sequence_length).2 k := by
    intro t k
    simp only [AdditiveAttention.call]
    exact softmaxWeightedSum_call_singleton false _ _ _ _ t k
  constructor
  · intro k
    simp only [NARMEncoderLayer.call]
    exact Fin.append_left _ _ k
  · intro k
    have happ := Fin.append_right (rnn inputs sequence_length).2
      (fun hh => ∑ t : Fin T, AdditiveAttention.call false act W_q W_k v
        (fun _ => 0) (rnn inputs sequence_length).1
        (fun (_ : Fin 1) => (rnn inputs sequence_length).2) sequence_length t hh) k
    have hsum : (∑ t : Fin T, AdditiveAttention.call false act W_q W_k v
        (fun _ => 0) (rnn inputs sequence_length).1
        (fun (_ : Fin 1) => (rnn inputs sequence_length).2) sequence_length t k) =
        (T : ℝ) * (rnn inputs sequence_length).2 k := by
      rw [Finset.sum_congr rfl fun t _ => hAA t k, Finset.sum_const,
        Finset.card_univ, Fintype.card_fin, nsmul_eq_mul]
    exact happ.trans hsum
